import Mathlib

/-!
Formal model of the Grad-CAM / guided-backpropagation visualization pipeline
of `gradcam.py` (with `alexnet.py` as collaborator) in the keras-alexnet
repository.  Numpy arrays are modelled as (nested) lists of rationals, the
float arithmetic of the source as exact rational arithmetic, and the uint8
cast as an integer floor.  In-place numpy mutation (`x -= ...` and friends)
is modelled by returning, next to the function result, the content of the
caller's buffer after the call.  External collaborators (keras autodiff,
`cv2.applyColorMap`, the TensorFlow gradient registry) enter as explicit
parameters or as faithful models of their documented behaviour
(`cv2.resize` bilinear interpolation, Python's `random.randint`).
-/

namespace GradcamPy

/-- Numpy `np.max` on a 1-D array: the maximum of the elements.  `np.max`
raises on an empty array; the `[]` case is given the junk value `0` and the
theorems never rely on it. -/
def npMax : List ℚ → ℚ
  | [] => 0
  | x :: xs => xs.foldl max x

/-- Numpy `np.min` on a 1-D array, analogous to `npMax`. -/
def npMin : List ℚ → ℚ
  | [] => 0
  | x :: xs => xs.foldl min x

/-- Numpy `ndarray.mean` of a 1-D array. -/
def npMean (l : List ℚ) : ℚ := l.sum / l.length

/-- Numpy `ndarray.var` (population variance) of a 1-D array, used to
characterise `ndarray.std = sqrt(var)`. -/
def npVariance (l : List ℚ) : ℚ :=
  (l.map (fun v => (v - npMean l) ^ 2)).sum / l.length

/-- Characterisation of `ndarray.std`: the standard deviation is the
nonnegative square root of the population variance.  A square root is
irrational in general, so the embedding passes the standard deviation as an
explicit argument constrained by this predicate. -/
def npStdSpec (l : List ℚ) (s : ℚ) : Prop := 0 ≤ s ∧ s ^ 2 = npVariance l

/-- Result of one call of `normalize_image` (gradcam.py lines 19-40) on a
1-D float buffer: `result` is the returned uint8 array, `buffer` is the
content of the caller's array after the call.  The augmented assignments
`x -= x.mean()`, `x /= (x.std() + 1e-5)`, `x *= 0.1`, `x += 0.5` operate in
place on the caller's array; `np.clip(x, 0, 1)` then rebinds `x` to a fresh
array, so `x *= 255` and the final clip-and-cast no longer touch the
caller's buffer.  The `astype('uint8')` truncation is a floor on the
already-clipped nonnegative values. -/
structure NormalizeRun where
  result : List ℤ
  buffer : List ℚ

/-- The body of `normalize_image` (gradcam.py lines 19-40) on a 1-D buffer
`x`, with `s` standing for the value of `x.std()` (computed on the centered
buffer; constrained through `npStdSpec` in the theorems).  The `np.ndim(x) >
3` squeeze does not apply to a 1-D input, and the Theano `image_dim_ordering`
transpose branch (lines 37-38) is not taken under the TensorFlow default
modelled here (on a 1-D array that transpose would raise). -/
def normalizeImage (x : List ℚ) (s : ℚ) : NormalizeRun :=
  let b1 := x.map (fun v => v - npMean x)
  let b2 := b1.map (fun v => v / (s + 1 / 100000))
  let b3 := b2.map (fun v => v * (1 / 10))
  let b4 := b3.map (fun v => v + 1 / 2)
  let c1 := b4.map (fun v => min (max v 0) 1)
  let c2 := c1.map (fun v => v * 255)
  { result := c2.map (fun v => Rat.floor (min (max v 0) 255)), buffer := b4 }

/-- Result of one call of `overlay_heatmap` (gradcam.py lines 124-136).
`image` is a batch (list) of flat pixel buffers, matching the `image[0, :]`
slice; `heatmap` a flat buffer.  `image -= np.min(image)` mutates the sliced
view and hence the first buffer of the caller's array; `np.minimum` then
rebinds `image` to a fresh array. -/
structure OverlayRun where
  result : List ℤ
  imageBuffer : List (List ℚ)
  heatmapBuffer : List ℚ

/-- The body of `overlay_heatmap` (gradcam.py lines 124-136).
`cv2.applyColorMap(..., cv2.COLORMAP_JET)` is an external 256-entry lookup
table, passed in as the pure function `colormap` and applied to the
`np.uint8(255 * heatmap)` values (a uint8 cast truncates and wraps modulo
256, hence the `emod`). -/
def overlayHeatmap (colormap : ℤ → ℚ) (image : List (List ℚ))
    (heatmap : List ℚ) : OverlayRun :=
  let img0 := image.headD []
  let shifted := img0.map (fun v => v - npMin img0)
  let img2 := shifted.map (fun v => min v 255)
  let camColored := heatmap.map (fun h => colormap (Int.emod (Rat.floor (255 * h)) 256))
  let cam2 := List.zipWith (fun a b => a + b) camColored img2
  let cam3 := cam2.map (fun v => 255 * v / npMax cam2)
  { result := cam3.map (fun v => Int.emod (Rat.floor v) 256),
    imageBuffer := shifted :: image.tail,
    heatmapBuffer := heatmap }

/-- The gradient rule registered under "GuidedBackProp" (gradcam.py lines
82-86), applied pointwise: `grad * tf.cast(grad > 0., dtype) *
tf.cast(op.inputs[0] > 0., dtype)`, where `op.inputs[0]` is the original
pre-activation input value `x`. -/
def guidedBackPropGrad (grad x : ℚ) : ℚ :=
  grad * (if 0 < grad then 1 else 0) * (if 0 < x then 1 else 0)

/-- TensorFlow's process-wide gradient registry, modelled as the list of
registered names.  `ops.RegisterGradient` raises a duplicate-registration
error when the name is already a key. -/
def registerGradientRule (name : String) (reg : List String) :
    Except String (List String) :=
  if name ∈ reg then Except.error "duplicate registration"
  else Except.ok (name :: reg)

/-- The registration path of `guided_backprop` (gradcam.py lines 80-86): the
rule is registered only when "GuidedBackProp" is not already a key of
`ops._gradient_registry._registry`. -/
def guidedRegistrationPath (reg : List String) : Except String (List String) :=
  if "GuidedBackProp" ∈ reg then Except.ok reg
  else registerGradientRule "GuidedBackProp" reg

/-- Running the registration path `n` times in one process, stopping at the
first raised error (an uncaught exception would abort the run). -/
def runRegistrations : ℕ → List String → Except String (List String)
  | 0, reg => Except.ok reg
  | n + 1, reg =>
      match guidedRegistrationPath reg with
      | Except.ok r => runRegistrations n r
      | Except.error e => Except.error e

/-- Activation function references as `modify_backprop` observes them:
`keras.activations.relu`, `tf.nn.relu`, or anything else. -/
inductive Activation where
  | kerasRelu
  | tfNnRelu
  | softmax
  | other : String → Activation
  deriving DecidableEq

/-- A keras layer as far as `modify_backprop` inspects it: `hasattr(layer,
'activation')` is modelled by the `Option`, and the activation reference is
compared against `keras.activations.relu`. -/
structure ModelLayer where
  name : String
  activation : Option Activation
  deriving DecidableEq

/-- State of the ORIGINAL model's layer list after `modify_backprop`
(gradcam.py lines 58-78) returns: the loop collects `model.layers[1:]` that
have an `activation` attribute and reassigns `layer.activation = tf.nn.relu`
on each one whose activation is `keras.activations.relu`.  The guided model
returned by `modify_backprop` itself is a fresh `load_model(path)`. -/
def modifyBackpropLayers : List ModelLayer → List ModelLayer
  | [] => []
  | l0 :: rest =>
      l0 :: rest.map (fun l =>
        match l.activation with
        | some a =>
            if a = Activation.kerasRelu then
              { l with activation := some Activation.tfNnRelu }
            else l
        | none => l)

/-- One image file write of `main`: the directory argument handed to
`os.path.join` and the file name joined onto it. -/
structure ImageWrite where
  dir : String
  file : String
  deriving DecidableEq

/-- The four `cv2.imwrite` destinations of `main` (gradcam.py lines 174, 185,
189, 193) in program order, for model path `path`, output directory `output`
and sampled index `index`.  Line 174 joins the raw input image onto `path`
(the model file path), not onto `output`. -/
def mainWrites (path output : String) (index : ℕ) : List ImageWrite :=
  [{ dir := path, file := toString index ++ ".jpg" },
   { dir := output, file := toString index ++ "_gradcam.jpg" },
   { dir := output, file := toString index ++ "_saliency.jpg" },
   { dir := output, file := toString index ++ "_guided-gradcam.jpg" }]

/-- How one invocation of `main` ends: normal completion, a keyboard
interrupt, or any other exception (carrying its message). -/
inductive RunOutcome where
  | completed
  | keyboardInterrupt
  | error : String → RunOutcome
  deriving DecidableEq

/-- Observable process termination: an exit status, or an uncaught exception
propagating out of the interpreter. -/
inductive ProcessExit where
  | exitCode : ℕ → ProcessExit
  | uncaught : String → ProcessExit
  deriving DecidableEq

/-- The `__main__` guard of gradcam.py (lines 196-201): `sys.exit(main())`
exits with status 0 when `main` returns (`main` returns `None`), a caught
`KeyboardInterrupt` becomes `sys.exit(1)`, and every other exception
propagates uncaught. -/
def scriptExit : RunOutcome → ProcessExit
  | RunOutcome.completed => ProcessExit.exitCode 0
  | RunOutcome.keyboardInterrupt => ProcessExit.exitCode 1
  | RunOutcome.error e => ProcessExit.uncaught e

/-- The support of Python's `random.randint(a, b)`: every integer of the
CLOSED interval `[a, b]`, each drawn with equal probability (the list is
duplicate-free, so uniformity over it is uniformity over the values). -/
def randintSupport (a b : ℕ) : List ℕ :=
  (List.range (b + 1 - a)).map (fun k => a + k)

/-- The candidate sample indices drawn by `main` (gradcam.py line 172):
`index = random.randint(0, len(x_test))`. -/
def sampleIndexSupport {α : Type} (xTest : List α) : List ℕ :=
  randintSupport 0 xTest.length

/-- Clamp an integer index into `[0, n-1]` (border replication of the
bilinear sampler); `Int.toNat` sends the degenerate empty-axis case to 0. -/
def clampIdx (n : ℕ) (i : ℤ) : ℕ := (min (max i 0) ((n : ℤ) - 1)).toNat

/-- Read entry `(i, j)` of a 2-D array with replicated borders; reads on a
malformed (ragged) row fall back to `0`. -/
def sampleAt (m : List (List ℚ)) (i j : ℤ) : ℚ :=
  (m.getD (clampIdx m.length i) []).getD (clampIdx (m.headD []).length j) 0

/-- Base index and interpolation weight of linear interpolation along one
axis of length `n` at source coordinate `f`, with the border handling of
`cv2.resize`: outside the grid the nearest row or column is replicated
(weight 0). -/
def interpCoef (n : ℕ) (f : ℚ) : ℤ × ℚ :=
  if Rat.floor f < 0 then (0, 0)
  else if (n : ℤ) - 1 ≤ Rat.floor f then ((n : ℤ) - 1, 0)
  else (Rat.floor f, f - (Rat.floor f : ℚ))

/-- Bilinear sample of a 2-D array at real source coordinates `(fy, fx)`. -/
def bilinearAt (m : List (List ℚ)) (fy fx : ℚ) : ℚ :=
  let py := interpCoef m.length fy
  let px := interpCoef (m.headD []).length fx
  (1 - py.2) * ((1 - px.2) * sampleAt m py.1 px.1 +
      px.2 * sampleAt m py.1 (px.1 + 1)) +
    py.2 * ((1 - px.2) * sampleAt m (py.1 + 1) px.1 +
      px.2 * sampleAt m (py.1 + 1) (px.1 + 1))

/-- `cv2.resize(src, dsize)` with the default bilinear interpolation, with
exact rational coefficients.  Per the OpenCV convention `dsize` is `(width,
height)`: the result has `dsize.2` rows and `dsize.1` columns, and
destination pixel `(r, c)` samples the source at coordinates
`((r + 1/2) * srcRows / dstRows - 1/2, (c + 1/2) * srcCols / dstCols - 1/2)`. -/
def cv2resize (src : List (List ℚ)) (dsize : ℕ × ℕ) : List (List ℚ) :=
  (List.range dsize.2).map (fun (r : ℕ) =>
    (List.range dsize.1).map (fun (c : ℕ) =>
      bilinearAt src (((r : ℚ) + 1 / 2) * src.length / dsize.2 - 1 / 2)
        (((c : ℚ) + 1 / 2) * (src.headD []).length / dsize.1 - 1 / 2)))

/-- `weights = np.mean(grads_val, axis=(0, 1))` (gradcam.py line 114) on a
`(H, W, C)` tensor modelled as rows of columns of channel lists: one mean
per channel index. -/
def npMeanAxes01 (g : List (List (List ℚ))) : List ℚ :=
  (List.range ((g.headD []).headD []).length).map (fun k =>
    (g.map (fun row => (row.map (fun pix => pix.getD k 0)).sum)).sum /
      ((g.length : ℚ) * ((g.headD []).length : ℚ)))

/-- `cam = np.dot(output, weights)` (gradcam.py line 115): channelwise dot
product of every pixel's channel vector with the weight vector. -/
def chanDot (output : List (List (List ℚ))) (weights : List ℚ) :
    List (List ℚ) :=
  output.map (fun row => row.map (fun pix =>
    (List.zipWith (fun a b => a * b) pix weights).sum))

/-- `cam = np.maximum(cam, 0)` (gradcam.py line 116): the ReLU step. -/
def reluMap (m : List (List ℚ)) : List (List ℚ) :=
  m.map (fun row => row.map (fun v => max v 0))

/-- The resized activation map of `grad_cam` (gradcam.py lines 114-120),
starting from the `output` and `grads_val` arrays delivered by the keras
gradient function (the autodiff itself is an external collaborator): mean
weights, channel dot product, ReLU, then `cv2.resize(cam, (height, width))`
exactly as the source passes `dsize`. -/
def gradCamResized (output grads : List (List (List ℚ))) (height width : ℕ) :
    List (List ℚ) :=
  cv2resize (reluMap (chanDot output (npMeanAxes01 grads))) (height, width)

/-- The heatmap returned by `grad_cam` (gradcam.py line 121): `cam /
np.max(cam)` with no guard.  When `np.max(cam) = 0` the float division
returns a NaN map (0/0 in every entry, since the ReLU has already made all
entries nonnegative); that degenerate outcome is modelled as `none`. -/
def gradCamMap (output grads : List (List (List ℚ))) (height width : ℕ) :
    Option (List (List ℚ)) :=
  if npMax (gradCamResized output grads height width).flatten = 0 then none
  else some ((gradCamResized output grads height width).map (fun row =>
    row.map (fun v => v / npMax (gradCamResized output grads height width).flatten)))

/-- The numpy shape of a 2-D array: number of rows, then row length. -/
def shapeOf (m : List (List ℚ)) : ℕ × ℕ := (m.length, (m.headD []).length)

/-- Concrete 50-element buffer exhibiting the non-idempotence of
`normalize_image`: 48 zeros, then 249 and 686. -/
def xC7 : List ℚ := List.replicate 48 0 ++ [249, 686]

/-- The uint8 output of `normalize_image` on `xC7`. -/
def yC7 : List ℤ := List.replicate 48 122 ++ [185, 255]

/-- The output `yC7` fed back in as a float buffer. -/
def yC7q : List ℚ := List.replicate 48 122 ++ [185, 255]

/-- Closed form of the per-element action of `normalize_image` on a buffer
with mean `m` and standard deviation `s` (proved equal to the mapped
composition of the five array passes in `normalizeImage_result_eq`). -/
def normElem (m s v : ℚ) : ℤ :=
  Rat.floor (min (max
    (min (max ((v - m) / (s + 1 / 100000) * (1 / 10) + 1 / 2) 0) 1 * 255) 0) 255)

theorem ratFloor_eq_intFloor (q : ℚ) : Rat.floor q = ⌊q⌋ := by
  rw [Rat.floor_def', Rat.floor_def]

theorem ratFloor_eval {q : ℚ} {z : ℤ} (h1 : (z : ℚ) ≤ q) (h2 : q < z + 1) :
    Rat.floor q = z := by
  rw [ratFloor_eq_intFloor]
  exact Int.floor_eq_iff.mpr ⟨h1, h2⟩

/-- C2: the registered "GuidedBackProp" gradient rule returns `grad` when
both the incoming gradient and the original pre-activation input are
strictly positive, and returns 0 for every other sign combination. -/
theorem guidedBackProp_rule_spec (grad x : ℚ) :
    (0 < grad ∧ 0 < x → guidedBackPropGrad grad x = grad) ∧
      (¬(0 < grad ∧ 0 < x) → guidedBackPropGrad grad x = 0) := by
  constructor
  · rintro ⟨hg, hx⟩
    simp [guidedBackPropGrad, if_pos hg, if_pos hx]
  · intro h
    unfold guidedBackPropGrad
    by_cases hg : 0 < grad
    · have hx : ¬0 < x := fun hx => h ⟨hg, hx⟩
      simp [if_pos hg, if_neg hx]
    · simp [if_neg hg]

/-- Witness for C2: the four sign combinations at `(±1, ±1)`. -/
theorem guidedBackProp_rule_spec_witness :
    guidedBackPropGrad 1 1 = 1 ∧ guidedBackPropGrad (-1) 1 = 0 ∧
      guidedBackPropGrad 1 (-1) = 0 ∧ guidedBackPropGrad (-1) (-1) = 0 :=
  ⟨(guidedBackProp_rule_spec 1 1).1 (by norm_num),
   (guidedBackProp_rule_spec (-1) 1).2 (by norm_num),
   (guidedBackProp_rule_spec 1 (-1)).2 (by norm_num),
   (guidedBackProp_rule_spec (-1) (-1)).2 (by norm_num)⟩

theorem runRegistrations_of_mem (n : ℕ) (reg : List String)
    (h : "GuidedBackProp" ∈ reg) : runRegistrations n reg = Except.ok reg := by
  induction n with
  | zero => rfl
  | succ n ih =>
      rw [runRegistrations, guidedRegistrationPath, if_pos h]
      exact ih

/-- C4: starting from a registry that does not yet hold the name (a fresh
process), running the registration path any positive number of times
succeeds without a duplicate-registration error and leaves exactly one rule
registered under "GuidedBackProp": the first run inserts it and every later
run observes the name and skips. -/
theorem registration_idempotent (reg : List String) (n : ℕ)
    (hnew : "GuidedBackProp" ∉ reg) (hn : 1 ≤ n) :
    runRegistrations n reg = Except.ok ("GuidedBackProp" :: reg) ∧
      ("GuidedBackProp" :: reg).count "GuidedBackProp" = 1 := by
  constructor
  · obtain ⟨m, rfl⟩ : ∃ m, n = m + 1 := ⟨n - 1, by omega⟩
    rw [runRegistrations, guidedRegistrationPath, if_neg hnew,
      registerGradientRule, if_neg hnew]
    exact runRegistrations_of_mem m _ (List.mem_cons_self _ _)
  · rw [List.count_cons_self, List.count_eq_zero.mpr hnew]

/-- Witness for C4: two runs from the empty registry. -/
theorem registration_idempotent_witness :
    runRegistrations 2 [] = Except.ok ["GuidedBackProp"] ∧
      (["GuidedBackProp"] : List String).count "GuidedBackProp" = 1 :=
  registration_idempotent [] 2 (by simp) (by norm_num)

/-- C8: evaluating the four write destinations of `main` at the default CLI
arguments and sample index 7: the run performs exactly four writes with the
expected file names, but the first one (the raw input image) is joined onto
the model path, not onto the output directory. -/
theorem mainWrites_first_write_misdirected :
    (mainWrites "saved_models/keras_alexnet.h5" "output" 7).map ImageWrite.dir =
        ["saved_models/keras_alexnet.h5", "output", "output", "output"] ∧
      (mainWrites "saved_models/keras_alexnet.h5" "output" 7).map ImageWrite.file =
        ["7.jpg", "7_gradcam.jpg", "7_saliency.jpg", "7_guided-gradcam.jpg"] ∧
      "saved_models/keras_alexnet.h5" ≠ "output" := by
  refine ⟨by decide, by decide, by decide⟩

/-- C9: normal completion exits with status 0 (`sys.exit(main())` with
`main` returning `None`), a keyboard interrupt exits with status 1, and any
other error propagates uncaught. -/
theorem script_exit_behavior :
    scriptExit RunOutcome.completed = ProcessExit.exitCode 0 ∧
      scriptExit RunOutcome.keyboardInterrupt = ProcessExit.exitCode 1 ∧
      ∀ e, scriptExit (RunOutcome.error e) = ProcessExit.uncaught e :=
  ⟨rfl, rfl, fun _ => rfl⟩

/-- C10: the sampled index is drawn from exactly the integers 0, ..,
`len(x_test)` (upper bound INCLUDED, each exactly once), the out-of-range
value `len(x_test)` is in the support and indexing with it is out of
bounds, while every index strictly below `len(x_test)` is in bounds. -/
theorem sample_index_inclusive_bound {α : Type} (xs : List α) :
    sampleIndexSupport xs = List.range (xs.length + 1) ∧
      (sampleIndexSupport xs).Nodup ∧
      xs.length ∈ sampleIndexSupport xs ∧
      xs[xs.length]? = none ∧
      ∀ i, i < xs.length → xs[i]?.isSome := by
  have hrange : sampleIndexSupport xs = List.range (xs.length + 1) := by
    simp [sampleIndexSupport, randintSupport]
  refine ⟨hrange, ?_, ?_, ?_, ?_⟩
  · rw [hrange]; exact List.nodup_range _
  · rw [hrange]; exact List.mem_range.mpr (Nat.lt_succ_self _)
  · simp
  · intro i hi
    rw [List.getElem?_eq_getElem hi]
    rfl

/-- Witness for C10: a one-element test set, where index 1 is drawn with
positive probability and is out of bounds while index 0 is in bounds. -/
theorem sample_index_inclusive_bound_witness :
    1 ∈ sampleIndexSupport [(3 : ℚ)] ∧ ([(3 : ℚ)])[1]? = none ∧
      ([(3 : ℚ)])[0]?.isSome :=
  ⟨(sample_index_inclusive_bound [(3 : ℚ)]).2.2.1,
   (sample_index_inclusive_bound [(3 : ℚ)]).2.2.2.1,
   (sample_index_inclusive_bound [(3 : ℚ)]).2.2.2.2 0 (by norm_num)⟩

/-- Counterexample for C5: `normalize_image` and `overlay_heatmap` are not
side-effect-free.  On the buffer `[0, 1]` (whose centered standard deviation
is exactly 1/2) `normalize_image` leaves the caller's array holding the
centered, rescaled values instead of `[0, 1]`; `overlay_heatmap` on the
image `[[1, 2]]` leaves the first slice shifted down by its minimum. -/
theorem transforms_mutate_counterexample :
    npStdSpec ([(0 : ℚ), 1].map (fun v => v - npMean [(0 : ℚ), 1])) (1 / 2) ∧
      (normalizeImage [(0 : ℚ), 1] (1 / 2)).buffer ≠ [(0 : ℚ), 1] ∧
      (overlayHeatmap (fun _ => 0) [[(1 : ℚ), 2]] [0, 0]).imageBuffer ≠
        [[(1 : ℚ), 2]] := by
  refine ⟨⟨by norm_num, ?_⟩, ?_, ?_⟩
  · norm_num [npVariance, npMean]
  · norm_num [normalizeImage, npMean]
  · norm_num [overlayHeatmap, npMin]

/-- C5 (amended): both transforms are deterministic functions of their
arguments, and the `heatmap` argument of `overlay_heatmap` is left
unchanged, but neither function is side-effect-free: after the call the
caller's `normalize_image` buffer holds the centered, rescaled, shifted
values (the state just before `np.clip` rebinds the local name), and the
first slice of the caller's `overlay_heatmap` image is shifted down by its
minimum. -/
theorem transforms_effect_amended (x : List ℚ) (s : ℚ) (colormap : ℤ → ℚ)
    (image : List (List ℚ)) (heatmap : List ℚ) :
    (normalizeImage x s).buffer =
        x.map (fun v => (v - npMean x) / (s + 1 / 100000) * (1 / 10) + 1 / 2) ∧
      (overlayHeatmap colormap image heatmap).imageBuffer =
        ((image.headD []).map (fun v => v - npMin (image.headD []))) ::
          image.tail ∧
      (overlayHeatmap colormap image heatmap).heatmapBuffer = heatmap := by
  refine ⟨?_, rfl, rfl⟩
  simp only [normalizeImage, List.map_map]
  rfl

/-- Counterexample for C6: `modify_backprop` does mutate the original
model.  On a model whose second layer carries `keras.activations.relu`, the
layer's activation reference is reassigned, so the original layer list is
not left unchanged. -/
theorem modifyBackprop_mutates_counterexample :
    modifyBackpropLayers
        [{ name := "input_1", activation := none },
         { name := "conv2d_1", activation := some Activation.kerasRelu }] ≠
      [{ name := "input_1", activation := none },
       { name := "conv2d_1", activation := some Activation.kerasRelu }] := by
  decide

/-- C6 (amended): `guided_backprop` builds the guided model as a fresh
`load_model(path)`, but it does mutate the original model in place: every
layer after the first whose activation reference is `keras.activations.relu`
has it reassigned to `tf.nn.relu`; layer names, the first layer, and all
other layers are unchanged. -/
theorem modifyBackprop_mutation_amended (ls : List ModelLayer) :
    (modifyBackpropLayers ls).map ModelLayer.name = ls.map ModelLayer.name ∧
      (modifyBackpropLayers ls).head? = ls.head? ∧
      ∀ i l, ls[i + 1]? = some l →
        (modifyBackpropLayers ls)[i + 1]? =
          some (if l.activation = some Activation.kerasRelu then
              { l with activation := some Activation.tfNnRelu }
            else l) := by
  obtain _ | ⟨l0, rest⟩ := ls
  · exact ⟨rfl, rfl, fun i l h => by simp at h⟩
  · have hf : ∀ a : ModelLayer,
        (match a.activation with
          | some act =>
              if act = Activation.kerasRelu then
                { a with activation := some Activation.tfNnRelu }
              else a
          | none => a) =
          if a.activation = some Activation.kerasRelu then
            { a with activation := some Activation.tfNnRelu }
          else a := by
      intro a
      cases ha : a.activation with
      | none => simp [ha]
      | some act =>
          by_cases hk : act = Activation.kerasRelu
          · simp [ha, hk]
          · simp [ha, hk]
    refine ⟨?_, rfl, ?_⟩
    · show l0.name :: _ = l0.name :: _
      congr 1
      rw [List.map_map]
      refine List.map_congr_left (fun a _ => ?_)
      rw [Function.comp_apply, hf a]
      by_cases hk : a.activation = some Activation.kerasRelu <;> simp [hk]
    · intro i l h
      rw [List.getElem?_cons_succ] at h
      simp only [modifyBackpropLayers, List.getElem?_cons_succ, List.getElem?_map,
        h, Option.map_some', hf l]

/-- Witness for C6 (amended): the relu layer at position 1 is rewritten to
`tf.nn.relu`. -/
theorem modifyBackprop_mutation_amended_witness :
    (modifyBackpropLayers
        [{ name := "input_1", activation := none },
         { name := "dense_1", activation := some Activation.kerasRelu }])[1]? =
      some { name := "dense_1", activation := some Activation.tfNnRelu } := by
  have h := (modifyBackprop_mutation_amended
      [{ name := "input_1", activation := none },
       { name := "dense_1", activation := some Activation.kerasRelu }]).2.2 0
      { name := "dense_1", activation := some Activation.kerasRelu } (by decide)
  simpa using h

theorem le_foldl_max (xs : List ℚ) (a : ℚ) : a ≤ xs.foldl max a := by
  induction xs generalizing a with
  | nil => exact le_refl a
  | cons x xs ih => exact le_trans (le_max_left a x) (ih (max a x))

theorem mem_le_foldl_max (xs : List ℚ) (a v : ℚ) (hv : v ∈ xs) :
    v ≤ xs.foldl max a := by
  induction xs generalizing a with
  | nil => cases hv
  | cons x xs ih =>
      rcases List.mem_cons.mp hv with rfl | hv
      · exact le_trans (le_max_right a v) (le_foldl_max xs (max a v))
      · exact ih (max a x) hv

theorem le_npMax {l : List ℚ} {v : ℚ} (hv : v ∈ l) : v ≤ npMax l := by
  cases l with
  | nil => cases hv
  | cons x xs =>
      rcases List.mem_cons.mp hv with rfl | hv
      · exact le_foldl_max xs v
      · exact mem_le_foldl_max xs x v hv

theorem sampleAt_nonneg {m : List (List ℚ)}
    (hm : ∀ row ∈ m, ∀ v ∈ row, 0 ≤ v) (i j : ℤ) : 0 ≤ sampleAt m i j := by
  unfold sampleAt
  by_cases hr : clampIdx m.length i < m.length
  · rw [List.getD_eq_getElem _ _ hr]
    by_cases hc : clampIdx (m.headD []).length j <
        (m[clampIdx m.length i]).length
    · rw [List.getD_eq_getElem _ _ hc]
      exact hm _ (List.getElem_mem hr) _ (List.getElem_mem hc)
    · rw [List.getD_eq_default _ _ (le_of_not_lt hc)]
  · rw [List.getD_eq_default _ _ (le_of_not_lt hr)]
    simp [List.getD]

theorem interpCoef_weight_bounds (n : ℕ) (f : ℚ) :
    0 ≤ (interpCoef n f).2 ∧ (interpCoef n f).2 ≤ 1 := by
  unfold interpCoef
  split_ifs with h1 h2
  · exact ⟨le_refl 0, by norm_num⟩
  · exact ⟨le_refl 0, by norm_num⟩
  · constructor
    · show 0 ≤ f - (Rat.floor f : ℚ)
      rw [ratFloor_eq_intFloor]
      have := Int.floor_le f
      linarith
    · show f - (Rat.floor f : ℚ) ≤ 1
      rw [ratFloor_eq_intFloor]
      have := Int.lt_floor_add_one f
      linarith

theorem bilinearAt_nonneg {m : List (List ℚ)}
    (hm : ∀ row ∈ m, ∀ v ∈ row, 0 ≤ v) (fy fx : ℚ) :
    0 ≤ bilinearAt m fy fx := by
  simp only [bilinearAt]
  obtain ⟨hy0, hy1⟩ := interpCoef_weight_bounds m.length fy
  obtain ⟨hx0, hx1⟩ := interpCoef_weight_bounds (m.headD []).length fx
  have s00 := sampleAt_nonneg hm (interpCoef m.length fy).1
    (interpCoef (m.headD []).length fx).1
  have s01 := sampleAt_nonneg hm (interpCoef m.length fy).1
    ((interpCoef (m.headD []).length fx).1 + 1)
  have s10 := sampleAt_nonneg hm ((interpCoef m.length fy).1 + 1)
    (interpCoef (m.headD []).length fx).1
  have s11 := sampleAt_nonneg hm ((interpCoef m.length fy).1 + 1)
    ((interpCoef (m.headD []).length fx).1 + 1)
  have h1a : (0 : ℚ) ≤ 1 - (interpCoef m.length fy).2 := by linarith
  have h1b : (0 : ℚ) ≤ 1 - (interpCoef (m.headD []).length fx).2 := by linarith
  apply add_nonneg
  · exact mul_nonneg h1a (add_nonneg (mul_nonneg h1b s00) (mul_nonneg hx0 s01))
  · exact mul_nonneg hy0 (add_nonneg (mul_nonneg h1b s10) (mul_nonneg hx0 s11))

theorem cv2resize_length (src : List (List ℚ)) (d : ℕ × ℕ) :
    (cv2resize src d).length = d.2 := by
  simp [cv2resize]

theorem cv2resize_mem_length {src : List (List ℚ)} {d : ℕ × ℕ}
    {row : List ℚ} (h : row ∈ cv2resize src d) : row.length = d.1 := by
  unfold cv2resize at h
  obtain ⟨r, _, rfl⟩ := List.mem_map.mp h
  simp

theorem cv2resize_entry_nonneg {src : List (List ℚ)}
    (hsrc : ∀ row ∈ src, ∀ v ∈ row, 0 ≤ v) {d : ℕ × ℕ} {row : List ℚ}
    (hrow : row ∈ cv2resize src d) {v : ℚ} (hv : v ∈ row) : 0 ≤ v := by
  unfold cv2resize at hrow
  obtain ⟨r, _, rfl⟩ := List.mem_map.mp hrow
  obtain ⟨c, _, rfl⟩ := List.mem_map.mp hv
  exact bilinearAt_nonneg hsrc _ _

theorem reluMap_nonneg (m : List (List ℚ)) :
    ∀ row ∈ reluMap m, ∀ v ∈ row, 0 ≤ v := by
  intro row hrow v hv
  unfold reluMap at hrow
  obtain ⟨row0, _, rfl⟩ := List.mem_map.mp hrow
  obtain ⟨v0, _, rfl⟩ := List.mem_map.mp hv
  exact le_max_right v0 0

theorem headD_mem {l : List (List ℚ)} (h : l ≠ []) : l.headD [] ∈ l := by
  cases l with
  | nil => exact absurd rfl h
  | cons x xs => exact List.mem_cons_self x xs

theorem map_rows_headD {l : List (List ℚ)} (g : List ℚ → List ℚ)
    (h : l ≠ []) : (l.map g).headD [] = g (l.headD []) := by
  cases l with
  | nil => exact absurd rfl h
  | cons x xs => rfl

theorem gradCamNormalizedAux (src : List (List ℚ))
    (hsrc : ∀ row ∈ src, ∀ v ∈ row, 0 ≤ v) (height width : ℕ)
    (hm : List ( List ℚ))
    (h0 : npMax (cv2resize src (height, width)).flatten ≠ 0)
    (hmeq : hm = (cv2resize src (height, width)).map (fun row =>
      row.map (fun v => v / npMax (cv2resize src (height, width)).flatten))) :
    shapeOf hm = (width, height) ∧ ∀ v ∈ hm.flatten, 0 ≤ v ∧ v ≤ 1 := by
  subst hmeq
  have hnn : ∀ row ∈ cv2resize src (height, width), ∀ v ∈ row, 0 ≤ v :=
    fun row hrow v hv => cv2resize_entry_nonneg hsrc hrow hv
  have hjoin_ne : (cv2resize src (height, width)).flatten ≠ [] := by
    intro he
    rw [he] at h0
    exact h0 rfl
  obtain ⟨u0, hu0⟩ := List.exists_mem_of_ne_nil _ hjoin_ne
  have hmpos : 0 < npMax (cv2resize src (height, width)).flatten := by
    have h1 : 0 ≤ u0 := by
      obtain ⟨row, hrow, hu⟩ := List.mem_flatten.mp hu0
      exact hnn row hrow u0 hu
    rcases lt_or_eq_of_le (le_trans h1 (le_npMax hu0)) with h | h
    · exact h
    · exact absurd h.symm h0
  have hRne : cv2resize src (height, width) ≠ [] := by
    intro he
    apply hjoin_ne
    rw [he]
    rfl
  constructor
  · show (_, _) = (width, height)
    have h1 : ((cv2resize src (height, width)).map (fun row =>
        row.map (fun v => v / npMax (cv2resize src (height, width)).flatten))).length =
        width := by
      rw [List.length_map, cv2resize_length]
    have h2 : (((cv2resize src (height, width)).map (fun row =>
        row.map (fun v => v / npMax (cv2resize src (height, width)).flatten))).headD
          []).length = height := by
      rw [map_rows_headD _ hRne, List.length_map,
        cv2resize_mem_length (headD_mem hRne)]
    rw [h1, h2]
  · intro v hv
    obtain ⟨row, hrowm, hvrow⟩ := List.mem_flatten.mp hv
    obtain ⟨row0, hrow0, rfl⟩ := List.mem_map.mp hrowm
    obtain ⟨u, hu, rfl⟩ := List.mem_map.mp hvrow
    have hu_join : u ∈ (cv2resize src (height, width)).flatten :=
      List.mem_flatten.mpr ⟨row0, hrow0, hu⟩
    exact ⟨div_nonneg (hnn row0 hrow0 u hu) (le_of_lt hmpos),
      (div_le_one hmpos).mpr (le_npMax hu_join)⟩

/-- C1 (amended): whenever the final normalization of `grad_cam` is defined
(the maximum of the resized map is nonzero), the returned heatmap has
`width` rows and `height` columns - `cv2.resize` reads `dsize` as `(width,
height)` while the code passes `(height, width)` - and every value lies in
`[0, 1]`. -/
theorem gradCam_shape_values_amended (output grads : List (List (List ℚ)))
    (height width : ℕ) (hm : List (List ℚ))
    (hsome : gradCamMap output grads height width = some hm) :
    shapeOf hm = (width, height) ∧ ∀ v ∈ hm.flatten, 0 ≤ v ∧ v ≤ 1 := by
  unfold gradCamMap gradCamResized at hsome
  split_ifs at hsome with h0
  injection hsome with hsome
  exact gradCamNormalizedAux _ (reluMap_nonneg _) height width hm h0 hsome.symm

theorem bilinearAt_singleton (c : ℚ) (fy fx : ℚ) :
    bilinearAt [[c]] fy fx = c := by
  have h1 : ∀ f : ℚ, interpCoef 1 f = (0, 0) := by
    intro f
    unfold interpCoef
    split_ifs with ha hb
    · rfl
    · norm_num
    · omega
  have hs : ∀ i j : ℤ, sampleAt [[c]] i j = c := by
    intro i j
    unfold sampleAt clampIdx
    simp
  simp only [bilinearAt]
  norm_num [h1, hs]

theorem cv2resize_singleton (c : ℚ) (d : ℕ × ℕ) :
    cv2resize [[c]] d = List.replicate d.2 (List.replicate d.1 c) := by
  unfold cv2resize
  trans ((List.range d.2).map (fun (_ : ℕ) =>
    (List.range d.1).map (fun (_ : ℕ) => c)))
  · refine List.map_congr_left fun r _ => ?_
    refine List.map_congr_left fun col _ => ?_
    exact bilinearAt_singleton c _ _
  · simp [List.map_const', List.length_range]

theorem chanDot_one_eval :
    chanDot [[[1]]] (npMeanAxes01 [[[(1 : ℚ)]]]) = [[1]] := by
  norm_num [chanDot, npMeanAxes01, List.range_succ]

theorem chanDot_negOne_eval :
    chanDot [[[1]]] (npMeanAxes01 [[[(-1 : ℚ)]]]) = [[-1]] := by
  norm_num [chanDot, npMeanAxes01, List.range_succ]

theorem reluMap_one_eval : reluMap [[(1 : ℚ)]] = [[1]] := by
  norm_num [reluMap, max_def]

theorem reluMap_negOne_eval : reluMap [[(-1 : ℚ)]] = [[0]] := by
  norm_num [reluMap, max_def]

/-- Counterexample for C1: for a 1-by-1 activation map with unit activation
and unit gradient and `(height, width) = (2, 3)`, the heatmap returned by
`grad_cam` has numpy shape `(3, 2)` - 3 rows and 2 columns - not the claimed
`(height, width) = (2, 3)`, because the code passes `(height, width)` where
`cv2.resize` expects `(width, height)`. -/
theorem gradCam_shape_counterexample :
    (gradCamMap [[[1]]] [[[1]]] 2 3).map shapeOf = some (3, 2) ∧
      ((3, 2) : ℕ × ℕ) ≠ (2, 3) := by
  constructor
  · unfold gradCamMap gradCamResized
    rw [chanDot_one_eval, reluMap_one_eval, cv2resize_singleton]
    norm_num [npMax, shapeOf, List.replicate_succ, max_def]
  · decide

/-- Witness for C1 (amended): on the same 1-by-1 unit map resized to
`(height, width) = (2, 2)`, the heatmap is the all-ones 2-by-2 matrix and
satisfies the amended shape and range properties. -/
theorem gradCam_shape_values_amended_witness :
    gradCamMap [[[1]]] [[[1]]] 2 2 = some [[1, 1], [1, 1]] ∧
      shapeOf [[1, 1], [1, 1]] = (2, 2) ∧
      ∀ v ∈ ([[1, 1], [1, 1]] : List (List ℚ)).flatten, 0 ≤ v ∧ v ≤ 1 := by
  have heval : gradCamMap [[[1]]] [[[1]]] 2 2 = some [[1, 1], [1, 1]] := by
    unfold gradCamMap gradCamResized
    rw [chanDot_one_eval, reluMap_one_eval, cv2resize_singleton]
    norm_num [npMax, List.replicate_succ, max_def]
  have h := gradCam_shape_values_amended [[[1]]] [[[1]]] 2 2 [[1, 1], [1, 1]] heval
  exact ⟨heval, h.1, h.2⟩

/-- C3: the division of line 121 is NOT guarded.  A 1-by-1 activation map
with unit activation and strictly negative gradient makes the ReLU zero the
whole map, `np.max(cam)` is 0, and `cam / np.max(cam)` is executed with a
zero divisor (an all-NaN heatmap, modelled as `none`). -/
theorem gradCam_zero_max_division_unguarded :
    gradCamMap [[[1]]] [[[(-1 : ℚ)]]] 2 2 = none := by
  unfold gradCamMap gradCamResized
  rw [chanDot_negOne_eval, reluMap_negOne_eval, cv2resize_singleton]
  norm_num [npMax, List.replicate_succ, max_def]

theorem normalizeImage_result_eq (x : List ℚ) (s : ℚ) :
    (normalizeImage x s).result = x.map (normElem (npMean x) s) := by
  simp only [normalizeImage, List.map_map]
  refine List.map_congr_left fun v _ => rfl

theorem npMean_xC7 : npMean xC7 = 187 / 10 := by
  norm_num [npMean, xC7, List.sum_append, List.sum_replicate,
    List.length_append, List.length_replicate, smul_zero]

theorem npMean_yC7q : npMean yC7q = 3148 / 25 := by
  norm_num [npMean, yC7q, List.sum_append, List.sum_replicate,
    List.length_append, List.length_replicate, nsmul_eq_mul]

theorem normElem_pass1_zero : normElem (187 / 10) (203 / 2) 0 = 122 := by
  unfold normElem
  apply ratFloor_eval <;> norm_num [min_def, max_def]

theorem normElem_pass1_mid : normElem (187 / 10) (203 / 2) 249 = 185 := by
  unfold normElem
  apply ratFloor_eval <;> norm_num [min_def, max_def]

theorem normElem_pass1_top : normElem (187 / 10) (203 / 2) 686 = 255 := by
  unfold normElem
  apply ratFloor_eval <;> norm_num [min_def, max_def]

theorem normElem_pass2_zero : normElem (3148 / 25) (511 / 25) 122 = 122 := by
  unfold normElem
  apply ratFloor_eval <;> norm_num [min_def, max_def]

theorem normElem_pass2_mid : normElem (3148 / 25) (511 / 25) 185 = 201 := by
  unfold normElem
  apply ratFloor_eval <;> norm_num [min_def, max_def]

theorem normElem_pass2_top : normElem (3148 / 25) (511 / 25) 255 = 255 := by
  unfold normElem
  apply ratFloor_eval <;> norm_num [min_def, max_def]

theorem normalizeImage_xC7_eval :
    (normalizeImage xC7 (203 / 2)).result = yC7 := by
  rw [normalizeImage_result_eq, npMean_xC7]
  simp only [xC7, yC7, List.map_append, List.map_replicate, List.map_cons,
    List.map_nil]
  rw [normElem_pass1_zero, normElem_pass1_mid, normElem_pass1_top]

theorem normalizeImage_yC7q_eval :
    (normalizeImage yC7q (511 / 25)).result =
      List.replicate 48 122 ++ [201, 255] := by
  rw [normalizeImage_result_eq, npMean_yC7q]
  simp only [yC7q, List.map_append, List.map_replicate, List.map_cons,
    List.map_nil]
  rw [normElem_pass2_zero, normElem_pass2_mid, normElem_pass2_top]

theorem npVariance_xC7_centered :
    npVariance (xC7.map (fun v => v - npMean xC7)) = 41209 / 4 := by
  rw [npMean_xC7]
  norm_num [npVariance, npMean, xC7, List.map_append, List.map_replicate,
    List.sum_append, List.sum_replicate, List.length_append,
    List.length_replicate, nsmul_eq_mul]

theorem npVariance_yC7q_centered :
    npVariance (yC7q.map (fun v => v - npMean yC7q)) = 261121 / 625 := by
  rw [npMean_yC7q]
  norm_num [npVariance, npMean, yC7q, List.map_append, List.map_replicate,
    List.sum_append, List.sum_replicate, List.length_append,
    List.length_replicate, nsmul_eq_mul]

/-- Counterexample for C7: `normalize_image` is not idempotent, not even up
to a tolerance.  On the 50-element buffer `xC7` (48 zeros, 249, 686; exact
centered standard deviation 203/2) the output is `yC7`; feeding `yC7` back
in (exact centered standard deviation 511/25) yields 201 instead of 185 at
position 48 - a deviation of 16 gray levels caused by the clipping of the
outlier in the first pass. -/
theorem normalizeImage_not_idempotent_counterexample :
    npStdSpec (xC7.map (fun v => v - npMean xC7)) (203 / 2) ∧
      (normalizeImage xC7 (203 / 2)).result = yC7 ∧
      yC7q = yC7.map (fun z => (z : ℚ)) ∧
      npStdSpec (yC7q.map (fun v => v - npMean yC7q)) (511 / 25) ∧
      (normalizeImage yC7q (511 / 25)).result ≠ yC7 := by
  refine ⟨⟨by norm_num, ?_⟩, normalizeImage_xC7_eval, ?_, ⟨by norm_num, ?_⟩, ?_⟩
  · rw [npVariance_xC7_centered]; norm_num
  · simp [yC7, yC7q, List.map_append, List.map_replicate]
  · rw [npVariance_yC7q_centered]; norm_num
  · rw [normalizeImage_yC7q_eval, yC7]
    intro h
    have h48 := congrArg (fun l => l[48]?) h
    simp [List.getElem?_append_right, List.length_replicate] at h48

/-- C7 (amended): every value returned by `normalize_image` is an integer
in `[0, 255]` (the uint8 range); the function is, however, not idempotent
(see the counterexample): renormalizing its own output can move values by
far more than a floating tolerance. -/
theorem normalizeImage_range_amended (x : List ℚ) (s : ℚ) :
    ∀ v ∈ (normalizeImage x s).result, 0 ≤ v ∧ v ≤ 255 := by
  intro v hv
  rw [normalizeImage_result_eq] at hv
  obtain ⟨u, _, rfl⟩ := List.mem_map.mp hv
  unfold normElem
  rw [ratFloor_eq_intFloor]
  constructor
  · apply Int.le_floor.mpr
    push_cast
    exact le_min (le_max_right _ 0) (by norm_num)
  · have h1 : ⌊min (max
        (min (max ((u - npMean x) / (s + 1 / 100000) * (1 / 10) + 1 / 2) 0) 1 * 255)
        0) 255⌋ ≤ ⌊(255 : ℚ)⌋ := Int.floor_le_floor (min_le_right _ _)
    simpa using h1

/-- Witness for C7 (amended): on the buffer `[0]` the returned value 127 is
in the uint8 range. -/
theorem normalizeImage_range_amended_witness :
    (127 : ℤ) ∈ (normalizeImage [(0 : ℚ)] 0).result ∧
      (0 : ℤ) ≤ 127 ∧ (127 : ℤ) ≤ 255 := by
  have heval : (normalizeImage [(0 : ℚ)] 0).result = [127] := by
    rw [normalizeImage_result_eq]
    have h : normElem (npMean [(0 : ℚ)]) 0 0 = 127 := by
      have hm : npMean [(0 : ℚ)] = 0 := by norm_num [npMean]
      rw [hm]
      unfold normElem
      apply ratFloor_eval <;> norm_num [min_def, max_def]
    simp only [List.map_cons, List.map_nil, h]
  have hmem : (127 : ℤ) ∈ (normalizeImage [(0 : ℚ)] 0).result := by
    rw [heval]
    exact List.mem_singleton.mpr rfl
  exact ⟨hmem, (normalizeImage_range_amended [(0 : ℚ)] 0 127 hmem).1,
    (normalizeImage_range_amended [(0 : ℚ)] 0 127 hmem).2⟩

end GradcamPy
